import Mathlib

/-!
Verification of the pgrs SQL query builder: a shallow embedding of the
query-construction core (value model, column references, predicate
compiler, staged SELECT builder, result materialization) together with
theorems settling the specification's claims about it.

Embedding conventions:
* Rust `Vec` becomes `List`; `Option` stays `Option`; the `Result` type
  becomes `Except PgRsError`.
* The mutable `params: &mut Vec<SqlValue>` accumulator of
  `WhereClause::build_sql` becomes explicit state passing: the function
  takes the vector and returns the grown vector.
* The `HashMap<String, String>` inside `Row` is modelled as the ordered
  association list produced by zipping columns with values, looked up with
  last-occurrence-wins semantics (a `HashMap` built by `collect` keeps the
  last insert for a duplicated key).
* The asynchronous driver is modelled as a pure function from SQL text and
  parameters to a result; `execute` additionally returns the list of
  driver invocations it performed so that "no driver call happens" is a
  provable statement.
-/

namespace Pgrs

/-- `SqlValue` from src/types/sql_value.rs: driver-agnostic parameter value. -/
inductive SqlValue where
  | Null : SqlValue
  | Text : String → SqlValue
  | Int32 : Int → SqlValue
  | Int64 : Int → SqlValue
  | Bool : Bool → SqlValue
  deriving DecidableEq, Repr

/-- `ColumnRef` from src/traits/column.rs: an owned table-name / column-name pair. -/
structure ColumnRef where
  table : String
  column : String
  deriving DecidableEq, Repr

/-- `ColumnRef::qualified_name`: `table.column`. -/
def ColumnRef.qualified_name (c : ColumnRef) : String :=
  c.table ++ "." ++ c.column

/-- The `Column` capability from src/traits/column.rs: a column exposes its
own name and its owning table's name. -/
structure Column where
  column_name : String
  table_name : String
  deriving DecidableEq, Repr

/-- `Column::qualified_name` (default method): `table.column`. -/
def Column.qualified_name (c : Column) : String :=
  c.table_name ++ "." ++ c.column_name

/-- `ColumnRef::from_column`. -/
def ColumnRef.from_column (c : Column) : ColumnRef :=
  { table := c.table_name, column := c.column_name }

/-- The `Table` capability from src/traits/table.rs. -/
structure Table where
  table_name : String
  schema : Option String := none
  deriving DecidableEq, Repr

/-- `Table::qualified_name` (default method): `schema.table` or just `table`. -/
def Table.qualified_name (t : Table) : String :=
  match t.schema with
  | some s => s ++ "." ++ t.table_name
  | none => t.table_name

/-- `PgRsError` from src/error.rs, together with the two compile-time
validation variants constructed by `SelectBuilder::build_sql` in
src/builders/select.rs. -/
inductive PgRsError where
  | ConnectionFailed : String → PgRsError
  | QueryFailed : String → PgRsError
  | UnexpectedRowCount : (expected : Nat) → (actual : Nat) → PgRsError
  | ColumnNotFound : String → PgRsError
  | NoColumnsSpecified : PgRsError
  | NoTableSpecified : PgRsError
  deriving DecidableEq, Repr

/-- `WhereClause` from src/clauses/where_clause.rs: predicate expression tree. -/
inductive WhereClause where
  | Eq : ColumnRef → SqlValue → WhereClause
  | And : WhereClause → WhereClause → WhereClause
  | Or : WhereClause → WhereClause → WhereClause
  deriving DecidableEq, Repr

/-- `WhereClause::eq` smart constructor. -/
def WhereClause.eq (column : Column) (value : SqlValue) : WhereClause :=
  WhereClause.Eq (ColumnRef.from_column column) value

/-- `WhereClause::and` smart constructor. -/
def WhereClause.and (self other : WhereClause) : WhereClause :=
  WhereClause.And self other

/-- `WhereClause::or` smart constructor. -/
def WhereClause.or (self other : WhereClause) : WhereClause :=
  WhereClause.Or self other

/-- `WhereClause::build_sql` from src/clauses/where_clause.rs. The Rust
function mutates `params` in place and returns the SQL fragment; here the
grown parameter vector is returned alongside the fragment. An `Eq` leaf
pushes its value and emits `<qualified> = $<param_offset + params.len()>`
with the length taken after the push; `And`/`Or` compile left then right
against the same growing vector. -/
def WhereClause.build_sql : WhereClause → Nat → List SqlValue → String × List SqlValue
  | WhereClause.Eq col value, param_offset, params =>
      let params' := params ++ [value]
      (col.qualified_name ++ " = $" ++ toString (param_offset + params'.length), params')
  | WhereClause.And left right, param_offset, params =>
      let l := left.build_sql param_offset params
      let r := right.build_sql param_offset l.2
      ("(" ++ l.1 ++ ") AND (" ++ r.1 ++ ")", r.2)
  | WhereClause.Or left right, param_offset, params =>
      let l := left.build_sql param_offset params
      let r := right.build_sql param_offset l.2
      ("(" ++ l.1 ++ ") OR (" ++ r.1 ++ ")", r.2)

/-- The `Eq` leaves of a predicate tree in left-to-right depth-first order. -/
def WhereClause.leaves : WhereClause → List (ColumnRef × SqlValue)
  | WhereClause.Eq col value => [(col, value)]
  | WhereClause.And left right => left.leaves ++ right.leaves
  | WhereClause.Or left right => left.leaves ++ right.leaves

/-- Number of `Eq` leaves of a predicate tree. -/
def WhereClause.leafCount (wc : WhereClause) : Nat :=
  wc.leaves.length

/-- A token of a compiled SQL fragment: either literal text or a positional
placeholder `$n`. Specification-side view used to state what the compiled
string contains. -/
inductive SqlToken where
  | str : String → SqlToken
  | placeholder : Nat → SqlToken
  deriving DecidableEq, Repr

/-- Rendering of one token back to SQL text. -/
def SqlToken.render : SqlToken → String
  | SqlToken.str s => s
  | SqlToken.placeholder n => "$" ++ toString n

/-- The placeholder number of a token, when it is one. -/
def SqlToken.placeholderNum : SqlToken → Option Nat
  | SqlToken.str _ => none
  | SqlToken.placeholder n => some n

/-- Shift a placeholder token's number by `k`; literal text is unchanged. -/
def SqlToken.shift (k : Nat) : SqlToken → SqlToken
  | SqlToken.str s => SqlToken.str s
  | SqlToken.placeholder n => SqlToken.placeholder (n + k)

/-- Specification-side tokenization of a predicate tree: leaves are
numbered sequentially in left-to-right depth-first order starting at
`k + 1`. Returns the token list and the counter after the subtree. -/
def WhereClause.tokens : WhereClause → Nat → List SqlToken × Nat
  | WhereClause.Eq col _, k =>
      ([SqlToken.str (col.qualified_name ++ " = "), SqlToken.placeholder (k + 1)], k + 1)
  | WhereClause.And left right, k =>
      let l := left.tokens k
      let r := right.tokens l.2
      ([SqlToken.str "("] ++ l.1 ++ [SqlToken.str ") AND ("] ++ r.1 ++ [SqlToken.str ")"], r.2)
  | WhereClause.Or left right, k =>
      let l := left.tokens k
      let r := right.tokens l.2
      ([SqlToken.str "("] ++ l.1 ++ [SqlToken.str ") OR ("] ++ r.1 ++ [SqlToken.str ")"], r.2)

/-- Concatenated rendering of a token list. -/
def renderTokens : List SqlToken → String
  | [] => ""
  | t :: ts => t.render ++ renderTokens ts

/-- `SelectBuilder` state from src/builders/select.rs (the driver handle is
not part of the compiled state; `execute` receives the driver
separately). The Rust `limit: Option<u64>` becomes `Option Nat`: the
builder stores the argument verbatim and only ever prints it in decimal,
so no wrap-around arithmetic is involved. -/
structure SelectBuilder where
  columns : List ColumnRef
  table : Option String
  where_clause : Option WhereClause
  limit : Option Nat
  deriving DecidableEq, Repr

/-- `SelectBuilder::new`: all fields empty. -/
def SelectBuilder.new : SelectBuilder :=
  { columns := [], table := none, where_clause := none, limit := none }

/-- `SelectBuilder::columns` fluent setter: replaces the column list with
the `ColumnRef`s of the given columns. (Named `setColumns` because the
field projection already uses the Rust method's name.) -/
def SelectBuilder.setColumns (b : SelectBuilder) (cols : List Column) : SelectBuilder :=
  { b with columns := cols.map ColumnRef.from_column }

/-- `SelectBuilder::from` fluent setter: stores the table's qualified
name. (`from` is a Lean keyword, hence `from_`.) -/
def SelectBuilder.from_ (b : SelectBuilder) (t : Table) : SelectBuilder :=
  { b with table := some t.qualified_name }

/-- `SelectBuilder::where_` fluent setter: stores the predicate tree. -/
def SelectBuilder.where_ (b : SelectBuilder) (clause : WhereClause) : SelectBuilder :=
  { b with where_clause := some clause }

/-- `SelectBuilder::limit` fluent setter. (Named `setLimit` because the
field projection already uses the Rust method's name.) -/
def SelectBuilder.setLimit (b : SelectBuilder) (n : Nat) : SelectBuilder :=
  { b with limit := some n }

/-- The column-list loop of `SelectBuilder::build_sql`: for each `(i, col)`
pair of the enumerated columns, push `", "` first when `i > 0`, then push
the qualified name. -/
def selectColsLoop (cols : List ColumnRef) (sql : String) : String :=
  cols.enum.foldl
    (fun sql ic => (if ic.1 > 0 then sql ++ ", " else sql) ++ ic.2.qualified_name) sql

/-- `SelectBuilder::build_sql` from src/builders/select.rs: validate
columns then table, emit `SELECT`, the joined column list, `FROM`, the
table, then the optional `WHERE` fragment (compiling the predicate at
offset 0 into the still-empty parameter vector) and the optional
`LIMIT` clause. -/
def SelectBuilder.build_sql (b : SelectBuilder) : Except PgRsError (String × List SqlValue) :=
  if b.columns.isEmpty then
    Except.error PgRsError.NoColumnsSpecified
  else
    match b.table with
    | none => Except.error PgRsError.NoTableSpecified
    | some table =>
      let params : List SqlValue := []
      let sql := selectColsLoop b.columns "SELECT "
      let sql := sql ++ " FROM " ++ table
      let sp :=
        match b.where_clause with
        | some where_clause =>
          let w := where_clause.build_sql 0 params
          (sql ++ " WHERE " ++ w.1, w.2)
        | none => (sql, params)
      let sql :=
        match b.limit with
        | some limit => sp.1 ++ " LIMIT " ++ toString limit
        | none => sp.1
      Except.ok (sql, sp.2)

/-- `RawQueryResult` from src/types/row.rs. -/
structure RawQueryResult where
  columns : List String
  rows : List (List String)
  deriving DecidableEq, Repr

/-- `RawQueryResult::empty`. -/
def RawQueryResult.empty : RawQueryResult :=
  { columns := [], rows := [] }

/-- Last-occurrence-wins lookup in an association list: the value stored
for `key` by a `HashMap` built by inserting the pairs left to right. -/
def lookupLast (key : String) : List (String × String) → Option String
  | [] => none
  | (k, v) :: rest =>
    match lookupLast key rest with
    | some r => some r
    | none => if k = key then some v else none

/-- `Row` from src/types/row.rs: the column-name → value mapping, modelled
as the zipped pair list with `lookupLast` as the map lookup. -/
structure Row where
  values : List (String × String)
  deriving DecidableEq, Repr

/-- `Row::new`: zip the column names with the values positionally; the zip
stops at the shorter list, as Rust's `Iterator::zip` does. -/
def Row.new (columns : List String) (values : List String) : Row :=
  { values := columns.zip values }

/-- `Row::get`: look up the capability's column name in the mapping; when
absent, fail with `ColumnNotFound` carrying the capability's qualified
name. -/
def Row.get (r : Row) (column : Column) : Except PgRsError String :=
  match lookupLast column.column_name r.values with
  | some s => Except.ok s
  | none => Except.error (PgRsError.ColumnNotFound column.qualified_name)

/-- `QueryResult` from src/types/row.rs. -/
structure QueryResult where
  columns : List String
  rows : List Row
  deriving DecidableEq, Repr

/-- `QueryResult::from_raw`: materialize each raw row against the shared
column-name list. -/
def QueryResult.from_raw (raw : RawQueryResult) : QueryResult :=
  { columns := raw.columns
    rows := raw.rows.map (fun values => Row.new raw.columns values) }

/-- `QueryResult::single_row`: error with `UnexpectedRowCount` unless
exactly one row is present, otherwise return the first (unique) row. -/
def QueryResult.single_row (qr : QueryResult) : Except PgRsError Row :=
  if h : qr.rows.length ≠ 1 then
    Except.error (PgRsError.UnexpectedRowCount 1 qr.rows.length)
  else
    Except.ok (qr.rows.head (by
      intro hnil
      exact h (by simp [hnil] at h ⊢)))

/-- A database driver modelled as a pure function: `execute(sql, params)`
either fails or yields a raw result. -/
def Driver : Type :=
  String → List SqlValue → Except PgRsError RawQueryResult

/-- `SelectBuilder::execute`: compile, run the driver, materialize.
Besides the result it returns the list of driver invocations performed
(each as the `(sql, params)` pair handed over), so that the absence of
driver calls on a compile failure is expressible. -/
def SelectBuilder.execute (b : SelectBuilder) (driver : Driver) :
    Except PgRsError QueryResult × List (String × List SqlValue) :=
  match b.build_sql with
  | Except.error e => (Except.error e, [])
  | Except.ok sp =>
    match driver sp.1 sp.2 with
    | Except.error e => (Except.error e, [(sp.1, sp.2)])
    | Except.ok raw => (Except.ok (QueryResult.from_raw raw), [(sp.1, sp.2)])

/-- Specification-side join: the given strings joined by the separator,
in order ("the columns' qualified names joined by `, `"). -/
def joinWith (sep : String) : List String → String
  | [] => ""
  | [x] => x
  | x :: y :: rest => x ++ sep ++ joinWith sep (y :: rest)

/-- Specification-side WHERE fragment: present if and only if a predicate
is present, and then ` WHERE ` plus the predicate compiled at offset 0
into an empty parameter vector. -/
def whereFragment : Option WhereClause → String
  | some wc => " WHERE " ++ (wc.build_sql 0 []).1
  | none => ""

/-- Specification-side LIMIT fragment: present if and only if a limit is
present, and then ` LIMIT ` plus its decimal text. -/
def limitFragment : Option Nat → String
  | some n => " LIMIT " ++ toString n
  | none => ""

/-- Specification-side parameter list: empty without a predicate,
otherwise exactly what the predicate compiler appended. -/
def paramsOf : Option WhereClause → List SqlValue
  | some wc => (wc.build_sql 0 []).2
  | none => []

/-- The text contributed by every column after the first in the
`SELECT` column loop: `", "` then the qualified name, for each column. -/
def commaTail : List ColumnRef → String
  | [] => ""
  | c :: cs => ", " ++ c.qualified_name ++ commaTail cs

/- ------------------------------------------------------------------ -/
/- Lemmas about the embedded operations.                               -/
/- ------------------------------------------------------------------ -/

theorem renderTokens_append (a b : List SqlToken) :
    renderTokens (a ++ b) = renderTokens a ++ renderTokens b := by
  induction a with
  | nil => simp [renderTokens, String.empty_append]
  | cons t ts ih => simp [renderTokens, ih, String.append_assoc]

theorem WhereClause.tokens_snd (wc : WhereClause) : ∀ k : Nat,
    (wc.tokens k).2 = k + wc.leafCount := by
  induction wc with
  | Eq col value => intro k; simp [tokens, leafCount, leaves]
  | And left right ihl ihr =>
      intro k
      simp only [tokens, leafCount, leaves, List.length_append, ihl, ihr]
      omega
  | Or left right ihl ihr =>
      intro k
      simp only [tokens, leafCount, leaves, List.length_append, ihl, ihr]
      omega

theorem WhereClause.tokens_placeholders (wc : WhereClause) : ∀ k : Nat,
    ((wc.tokens k).1).filterMap SqlToken.placeholderNum
      = List.range' (k + 1) wc.leafCount := by
  induction wc with
  | Eq col value =>
      intro k
      simp [tokens, leafCount, leaves, SqlToken.placeholderNum, List.range'_one]
  | And left right ihl ihr =>
      intro k
      simp only [tokens]
      rw [List.filterMap_append, List.filterMap_append, List.filterMap_append,
        List.filterMap_append, ihl, tokens_snd, ihr]
      simp only [List.filterMap, SqlToken.placeholderNum, leafCount, leaves,
        List.length_append, List.append_nil, List.nil_append]
      rw [show k + left.leaves.length + 1 = (k + 1) + 1 * left.leaves.length by omega]
      rw [List.range'_append]
      rw [Nat.add_comm right.leaves.length left.leaves.length]
  | Or left right ihl ihr =>
      intro k
      simp only [tokens]
      rw [List.filterMap_append, List.filterMap_append, List.filterMap_append,
        List.filterMap_append, ihl, tokens_snd, ihr]
      simp only [List.filterMap, SqlToken.placeholderNum, leafCount, leaves,
        List.length_append, List.append_nil, List.nil_append]
      rw [show k + left.leaves.length + 1 = (k + 1) + 1 * left.leaves.length by omega]
      rw [List.range'_append]
      rw [Nat.add_comm right.leaves.length left.leaves.length]

theorem WhereClause.tokens_shift (wc : WhereClause) (k : Nat) : ∀ j : Nat,
    (wc.tokens (j + k)).1 = ((wc.tokens j).1).map (SqlToken.shift k) ∧
    (wc.tokens (j + k)).2 = (wc.tokens j).2 + k := by
  induction wc with
  | Eq col value =>
      intro j
      refine ⟨?_, by simp [tokens]; omega⟩
      simp only [tokens, List.map_cons, List.map_nil, SqlToken.shift]
      rw [show j + k + 1 = j + 1 + k by omega]
  | And left right ihl ihr =>
      intro j
      obtain ⟨hl1, hl2⟩ := ihl j
      obtain ⟨hr1, hr2⟩ := ihr (left.tokens j).2
      rw [← hl2] at hr1 hr2
      constructor
      · simp only [tokens, hl1, hr1, List.map_append, List.map_cons,
          List.map_nil, SqlToken.shift]
      · simp only [tokens, hr2]
  | Or left right ihl ihr =>
      intro j
      obtain ⟨hl1, hl2⟩ := ihl j
      obtain ⟨hr1, hr2⟩ := ihr (left.tokens j).2
      rw [← hl2] at hr1 hr2
      constructor
      · simp only [tokens, hl1, hr1, List.map_append, List.map_cons,
          List.map_nil, SqlToken.shift]
      · simp only [tokens, hr2]

theorem WhereClause.build_sql_spec (wc : WhereClause) :
    ∀ (param_offset : Nat) (params : List SqlValue),
      wc.build_sql param_offset params =
        (renderTokens (wc.tokens (param_offset + params.length)).1,
         params ++ wc.leaves.map Prod.snd) := by
  induction wc with
  | Eq col value =>
      intro off params
      simp only [build_sql, tokens, leaves, renderTokens, SqlToken.render,
        List.map_cons, List.map_nil, List.length_append, List.length_cons,
        List.length_nil, Nat.zero_add]
      rw [Prod.mk.injEq]
      refine ⟨?_, rfl⟩
      rw [show off + (params.length + 1) = off + params.length + 1 by omega]
      rw [String.append_empty]
      rw [String.append_assoc col.qualified_name " = "]
      rw [← String.append_assoc " = " "$", ← String.append_assoc col.qualified_name]
      rfl
  | And left right ihl ihr =>
      intro off params
      simp only [build_sql, tokens, leaves, ihl, ihr]
      rw [Prod.mk.injEq]
      constructor
      · rw [List.length_append, List.length_map, tokens_snd, leafCount]
        rw [show off + (params.length + left.leaves.length)
              = off + params.length + left.leaves.length by omega]
        simp [renderTokens_append, renderTokens, SqlToken.render,
          String.append_assoc, String.append_empty]
      · simp
  | Or left right ihl ihr =>
      intro off params
      simp only [build_sql, tokens, leaves, ihl, ihr]
      rw [Prod.mk.injEq]
      constructor
      · rw [List.length_append, List.length_map, tokens_snd, leafCount]
        rw [show off + (params.length + left.leaves.length)
              = off + params.length + left.leaves.length by omega]
        simp [renderTokens_append, renderTokens, SqlToken.render,
          String.append_assoc, String.append_empty]
      · simp

theorem selectColsLoop_enumFrom (cs : List ColumnRef) : ∀ (k : Nat) (acc : String),
    (List.enumFrom (k + 1) cs).foldl
        (fun sql ic => (if ic.1 > 0 then sql ++ ", " else sql) ++ ic.2.qualified_name) acc
      = acc ++ commaTail cs := by
  induction cs with
  | nil => intro k acc; simp [commaTail, String.append_empty]
  | cons c cs ih =>
      intro k acc
      rw [List.enumFrom_cons, List.foldl_cons]
      simp only [Nat.succ_pos, if_pos, gt_iff_lt]
      rw [ih (k + 1)]
      simp [commaTail, String.append_assoc]

theorem joinWith_eq_commaTail (cs : List ColumnRef) : ∀ c : ColumnRef,
    joinWith ", " ((c :: cs).map ColumnRef.qualified_name)
      = c.qualified_name ++ commaTail cs := by
  induction cs with
  | nil => intro c; simp [joinWith, commaTail, String.append_empty]
  | cons d ds ih =>
      intro c
      simp only [List.map_cons, joinWith, commaTail] at ih ⊢
      rw [ih d]
      simp [String.append_assoc]

theorem selectColsLoop_eq_joinWith (cols : List ColumnRef) (acc : String) :
    selectColsLoop cols acc = acc ++ joinWith ", " (cols.map ColumnRef.qualified_name) := by
  cases cols with
  | nil => simp [selectColsLoop, joinWith, String.append_empty]
  | cons c cs =>
      rw [selectColsLoop, List.enum_cons, List.foldl_cons]
      simp only [gt_iff_lt, Nat.lt_irrefl, if_neg, Nat.zero_add]
      rw [show (1 : Nat) = 0 + 1 from rfl, selectColsLoop_enumFrom cs 0]
      rw [joinWith_eq_commaTail cs c, String.append_assoc]
      simp

theorem lookupLast_eq_none (key : String) (ps : List (String × String))
    (h : key ∉ ps.map Prod.fst) : lookupLast key ps = none := by
  induction ps with
  | nil => rfl
  | cons p rest ih =>
      obtain ⟨k, v⟩ := p
      simp only [List.map_cons, List.mem_cons, not_or] at h
      rw [lookupLast, ih h.2, if_neg (fun hk => h.1 hk.symm)]

theorem lookupLast_zip_nodup (cols : List String) : ∀ (vals : List String),
    cols.Nodup → vals.length = cols.length →
    ∀ (i : Nat) (hi : i < cols.length) (hv : i < vals.length),
      lookupLast (cols.get ⟨i, hi⟩) (cols.zip vals) = some (vals.get ⟨i, hv⟩) := by
  induction cols with
  | nil => intro vals _ _ i hi; simp at hi
  | cons cname cs ih =>
      intro vals hnd hlen i hi hv
      cases vals with
      | nil => simp at hlen
      | cons v vs =>
          simp only [List.length_cons] at hlen
          cases i with
          | zero =>
              simp only [List.zip_cons_cons, List.get]
              rw [lookupLast]
              rw [lookupLast_eq_none cname (cs.zip vs) ?notmem]
              · simp
              case notmem =>
                rw [List.map_fst_zip cs vs (by omega)]
                exact (List.nodup_cons.mp hnd).1
          | succ j =>
              simp only [List.zip_cons_cons, List.get]
              rw [lookupLast]
              rw [ih vs (List.nodup_cons.mp hnd).2 (by omega) j
                    (by simpa using hi) (by simpa using hv)]

theorem lookupLast_zip_not_mem (cols vals : List String) (key : String)
    (h : key ∉ cols) : lookupLast key (cols.zip vals) = none := by
  apply lookupLast_eq_none
  intro hmem
  obtain ⟨p, hp, hfst⟩ := List.mem_map.mp hmem
  obtain ⟨c, v⟩ := p
  exact h (hfst ▸ (List.of_mem_zip hp).1)

theorem map_fst_zip_take (a b : List String) :
    (a.zip b).map Prod.fst = a.take b.length := by
  induction a generalizing b with
  | nil => simp
  | cons x xs ih =>
      cases b with
      | nil => simp
      | cons y ys => simp [ih]

theorem map_snd_zip_take (a b : List String) :
    (a.zip b).map Prod.snd = b.take a.length := by
  induction a generalizing b with
  | nil => simp
  | cons x xs ih =>
      cases b with
      | nil => simp
      | cons y ys => simp [ih]

/- ------------------------------------------------------------------ -/
/- The claims.                                                         -/
/- ------------------------------------------------------------------ -/

/-- C1: for every SelectBuilder whose column list is non-empty and whose
table is set, `build_sql` succeeds with SQL equal to `SELECT ` followed by
the columns' qualified names joined by `, ` in the supplied order, then
` FROM ` and the table name, then a ` WHERE ` fragment (predicate compiled
at offset 0) if and only if a predicate is present, then ` LIMIT n` if and
only if a limit `n` is present, in exactly that clause order; the
parameter list is empty without a predicate and exactly what the predicate
compiler appended otherwise. -/
theorem C1_build_sql_shape (b : SelectBuilder) (t : String)
    (hc : b.columns ≠ []) (ht : b.table = some t) :
    b.build_sql = Except.ok
      ("SELECT " ++ joinWith ", " (b.columns.map ColumnRef.qualified_name)
        ++ " FROM " ++ t
        ++ whereFragment b.where_clause
        ++ limitFragment b.limit,
       paramsOf b.where_clause) := by
  obtain ⟨cols, tbl, w, l⟩ := b
  dsimp only at hc ht ⊢
  subst ht
  cases cols with
  | nil => exact absurd rfl hc
  | cons c cs =>
      cases w <;> cases l <;>
        simp [SelectBuilder.build_sql, selectColsLoop_eq_joinWith, whereFragment,
          limitFragment, paramsOf, String.append_assoc, String.append_empty]

/-- C1 witness: the end-to-end scenario — columns `[id, name]` of table
`users`, predicate `name = "John"`, limit 10 — compiles to exactly the
expected SQL and parameter list. -/
theorem C1_build_sql_shape_witness :
    ((((SelectBuilder.new.setColumns
          [⟨"id", "users"⟩, ⟨"name", "users"⟩]).from_
        ⟨"users", none⟩).where_
          (WhereClause.eq ⟨"name", "users"⟩ (SqlValue.Text "John"))).setLimit 10).build_sql
    = Except.ok
        ("SELECT users.id, users.name FROM users WHERE users.name = $1 LIMIT 10",
         [SqlValue.Text "John"]) := by
  rw [C1_build_sql_shape _ "users" (by decide) rfl]
  rfl

/-- C2: compiling any predicate tree at offset 0 into an initially empty
parameter vector yields the rendering of its token stream, whose
placeholder tokens are exactly `$1` through `$leafCount` in left-to-right
depth-first order (one per `Eq` leaf); the parameter vector afterwards
holds exactly the leaf values in that same order, one per leaf, with no
deduplication. -/
theorem C2_placeholder_numbering (wc : WhereClause) :
    (wc.build_sql 0 []).1 = renderTokens (wc.tokens 0).1 ∧
    ((wc.tokens 0).1).filterMap SqlToken.placeholderNum = List.range' 1 wc.leafCount ∧
    (wc.build_sql 0 []).2 = wc.leaves.map Prod.snd ∧
    (wc.build_sql 0 []).2.length = wc.leafCount := by
  have h := wc.build_sql_spec 0 []
  simp only [List.length_nil, Nat.add_zero, List.nil_append] at h
  refine ⟨by rw [h], by simpa using wc.tokens_placeholders 0, by rw [h], ?_⟩
  rw [h]
  simp [WhereClause.leafCount]

/-- C3: `build_sql` on an empty column list fails with
`NoColumnsSpecified` (whatever the table, so a builder missing both fails
this way); with columns but no table it fails with `NoTableSpecified`;
and any `build_sql` failure makes `execute` return that error with zero
driver invocations. -/
theorem C3_validation_errors (b : SelectBuilder) :
    (b.columns = [] → b.build_sql = Except.error PgRsError.NoColumnsSpecified) ∧
    (b.columns ≠ [] → b.table = none →
      b.build_sql = Except.error PgRsError.NoTableSpecified) ∧
    (∀ e, b.build_sql = Except.error e →
      ∀ driver : Driver, b.execute driver = (Except.error e, [])) := by
  refine ⟨?_, ?_, ?_⟩
  · intro h
    rw [SelectBuilder.build_sql, if_pos (by simp [h])]
  · intro hc ht
    rw [SelectBuilder.build_sql, if_neg (by simpa [List.isEmpty_iff] using hc), ht]
  · intro e he driver
    rw [SelectBuilder.execute, he]

/-- C3 witness: a columnless builder fails with `NoColumnsSpecified`, a
tableless one with `NoTableSpecified`, and executing the columnless one
against a driver performs no driver call. -/
theorem C3_validation_errors_witness :
    SelectBuilder.new.build_sql = Except.error PgRsError.NoColumnsSpecified ∧
    (SelectBuilder.new.setColumns [⟨"id", "users"⟩]).build_sql
      = Except.error PgRsError.NoTableSpecified ∧
    SelectBuilder.new.execute (fun _ _ => Except.ok RawQueryResult.empty)
      = (Except.error PgRsError.NoColumnsSpecified, []) :=
  ⟨(C3_validation_errors SelectBuilder.new).1 rfl,
   (C3_validation_errors _).2.1 (by decide) rfl,
   (C3_validation_errors SelectBuilder.new).2.2 PgRsError.NoColumnsSpecified
     ((C3_validation_errors SelectBuilder.new).1 rfl) _⟩

/-- C4: compiling any predicate tree at offset `k` into an initially empty
parameter vector yields the offset-0 token stream with every placeholder
number increased by exactly `k` (literal text, and hence the relative
order of placeholders, unchanged), rendered; the parameter list is
identical to the offset-0 one. -/
theorem C4_offset_shift (wc : WhereClause) (k : Nat) :
    (wc.build_sql k []).1
        = renderTokens (((wc.tokens 0).1).map (SqlToken.shift k)) ∧
    (wc.build_sql 0 []).1 = renderTokens (wc.tokens 0).1 ∧
    (wc.build_sql k []).2 = (wc.build_sql 0 []).2 := by
  have hk := wc.build_sql_spec k []
  have h0 := wc.build_sql_spec 0 []
  have hs := (wc.tokens_shift k 0).1
  simp only [List.length_nil, Nat.add_zero, Nat.zero_add, List.nil_append] at hk h0 hs
  exact ⟨by rw [hk, hs], by rw [h0], by rw [hk, h0]⟩

/-- C5: `single_row` returns the unique row when exactly one row is
present, and otherwise fails with `UnexpectedRowCount` carrying
expected 1 and the actual row count. -/
theorem C5_single_row (qr : QueryResult) :
    (∀ r, qr.rows = [r] → qr.single_row = Except.ok r) ∧
    (qr.rows.length ≠ 1 →
      qr.single_row = Except.error (PgRsError.UnexpectedRowCount 1 qr.rows.length)) := by
  constructor
  · intro r hr
    simp [QueryResult.single_row, hr]
  · intro h
    simp [QueryResult.single_row, h]

/-- C5 witness: a one-row result yields its row; zero rows yield
`UnexpectedRowCount` with actual 0; two rows with actual 2. -/
theorem C5_single_row_witness :
    (QueryResult.from_raw ⟨["id"], [["1"]]⟩).single_row
        = Except.ok (Row.new ["id"] ["1"]) ∧
    (QueryResult.from_raw ⟨["id"], []⟩).single_row
        = Except.error (PgRsError.UnexpectedRowCount 1 0) ∧
    (QueryResult.from_raw ⟨["id"], [["1"], ["2"]]⟩).single_row
        = Except.error (PgRsError.UnexpectedRowCount 1 2) :=
  ⟨(C5_single_row (QueryResult.from_raw ⟨["id"], [["1"]]⟩)).1 _ rfl,
   (C5_single_row (QueryResult.from_raw ⟨["id"], []⟩)).2 (by decide),
   (C5_single_row (QueryResult.from_raw ⟨["id"], [["1"], ["2"]]⟩)).2 (by decide)⟩

/-- C6: for a raw result with pairwise distinct column names and a
full-length row, materializing and reading by a capability whose column
name equals the i-th column returns the row's i-th value; reading an
undeclared column fails with `ColumnNotFound` carrying the capability's
qualified name. -/
theorem C6_row_roundtrip (raw : RawQueryResult) (vals : List String) (c : Column)
    (hnd : raw.columns.Nodup) (hlen : vals.length = raw.columns.length) :
    (vals ∈ raw.rows → Row.new raw.columns vals ∈ (QueryResult.from_raw raw).rows) ∧
    (∀ (i : Nat) (hi : i < raw.columns.length) (hv : i < vals.length),
        c.column_name = raw.columns.get ⟨i, hi⟩ →
        (Row.new raw.columns vals).get c = Except.ok (vals.get ⟨i, hv⟩)) ∧
    (c.column_name ∉ raw.columns →
        (Row.new raw.columns vals).get c
          = Except.error (PgRsError.ColumnNotFound c.qualified_name)) := by
  refine ⟨?_, ?_, ?_⟩
  · intro hmem
    simp only [QueryResult.from_raw]
    exact List.mem_map_of_mem _ hmem
  · intro i hi hv hname
    simp only [Row.get, Row.new]
    rw [hname, lookupLast_zip_nodup raw.columns vals hnd hlen i hi hv]
  · intro hnot
    simp only [Row.get, Row.new]
    rw [lookupLast_zip_not_mem raw.columns vals _ hnot]

/-- C6 witness: with columns `["id","name"]` and row `["1","Alice"]`, the
`name` capability reads `"Alice"` and an undeclared `missing` capability
fails with `ColumnNotFound "users.missing"`. -/
theorem C6_row_roundtrip_witness :
    (Row.new ["id", "name"] ["1", "Alice"]).get ⟨"name", "users"⟩
        = Except.ok "Alice" ∧
    (Row.new ["id", "name"] ["1", "Alice"]).get ⟨"missing", "users"⟩
        = Except.error (PgRsError.ColumnNotFound "users.missing") :=
  ⟨(C6_row_roundtrip ⟨["id", "name"], [["1", "Alice"]]⟩ ["1", "Alice"]
      ⟨"name", "users"⟩ (by decide) (by decide)).2.1 1 (by decide) (by decide) (by decide),
   (C6_row_roundtrip ⟨["id", "name"], [["1", "Alice"]]⟩ ["1", "Alice"]
      ⟨"missing", "users"⟩ (by decide) (by decide)).2.2 (by decide)⟩

/-- C7: `build_sql` is a deterministic function of the builder's four
fields — two builders with equal fields compile to identical SQL text and
identical parameter lists (so compiling an unmutated builder twice agrees
byte for byte). -/
theorem C7_deterministic (b b' : SelectBuilder)
    (h : b.columns = b'.columns ∧ b.table = b'.table ∧
         b.where_clause = b'.where_clause ∧ b.limit = b'.limit) :
    b.build_sql = b'.build_sql := by
  obtain ⟨h1, h2, h3, h4⟩ := h
  obtain ⟨c1, t1, w1, l1⟩ := b
  obtain ⟨c2, t2, w2, l2⟩ := b'
  dsimp only at h1 h2 h3 h4
  subst h1
  subst h2
  subst h3
  subst h4
  rfl

/-- C7 witness: two builders reaching the same state through different
call orders compile identically. -/
theorem C7_deterministic_witness :
    ((SelectBuilder.new.setColumns [⟨"id", "users"⟩]).from_ ⟨"users", none⟩).build_sql
      = ((SelectBuilder.new.from_ ⟨"users", none⟩).setColumns [⟨"id", "users"⟩]).build_sql :=
  C7_deterministic _ _ ⟨rfl, rfl, rfl, rfl⟩

/-- C8: each fluent setter modifies only its own field, leaving the other
three unchanged, and a second call replaces the first outright. -/
theorem C8_setter_frame (b : SelectBuilder) (cols cols' : List Column)
    (t t' : Table) (w w' : WhereClause) (n n' : Nat) :
    ((b.setColumns cols).table = b.table ∧
     (b.setColumns cols).where_clause = b.where_clause ∧
     (b.setColumns cols).limit = b.limit ∧
     (b.setColumns cols).columns = cols.map ColumnRef.from_column ∧
     ((b.setColumns cols).setColumns cols').columns = cols'.map ColumnRef.from_column) ∧
    ((b.from_ t).columns = b.columns ∧
     (b.from_ t).where_clause = b.where_clause ∧
     (b.from_ t).limit = b.limit ∧
     (b.from_ t).table = some t.qualified_name ∧
     ((b.from_ t).from_ t').table = some t'.qualified_name) ∧
    ((b.where_ w).columns = b.columns ∧
     (b.where_ w).table = b.table ∧
     (b.where_ w).limit = b.limit ∧
     (b.where_ w).where_clause = some w ∧
     ((b.where_ w).where_ w').where_clause = some w') ∧
    ((b.setLimit n).columns = b.columns ∧
     (b.setLimit n).table = b.table ∧
     (b.setLimit n).where_clause = b.where_clause ∧
     (b.setLimit n).limit = some n ∧
     ((b.setLimit n).setLimit n').limit = some n') :=
  ⟨⟨rfl, rfl, rfl, rfl, rfl⟩, ⟨rfl, rfl, rfl, rfl, rfl⟩,
   ⟨rfl, rfl, rfl, rfl, rfl⟩, ⟨rfl, rfl, rfl, rfl, rfl⟩⟩

/-- C9: `Row::new` never fails on a length mismatch — it pairs columns
with values positionally up to the shorter length and silently drops the
excess names or values. -/
theorem C9_row_new_truncates (cols vals : List String) :
    (Row.new cols vals).values = cols.zip vals ∧
    (Row.new cols vals).values.length = min cols.length vals.length ∧
    (Row.new cols vals).values.map Prod.fst = cols.take vals.length ∧
    (Row.new cols vals).values.map Prod.snd = vals.take cols.length :=
  ⟨rfl, by simp [Row.new], map_fst_zip_take cols vals, map_snd_zip_take cols vals⟩

/-- C10: whether `Row::get` succeeds, and its value on success, depend
only on the capability's column name: capabilities with equal column
names but different table names give the same outcome, the table name
showing up only inside the `ColumnNotFound` diagnostic string. -/
theorem C10_table_independent (r : Row) (c c' : Column)
    (h : c.column_name = c'.column_name) :
    (∀ s, r.get c = Except.ok s ↔ r.get c' = Except.ok s) ∧
    ((r.get c).isOk ↔ (r.get c').isOk) ∧
    (r.get c = Except.error (PgRsError.ColumnNotFound c.qualified_name) ↔
      r.get c' = Except.error (PgRsError.ColumnNotFound c'.qualified_name)) := by
  have hsame : lookupLast c.column_name r.values = lookupLast c'.column_name r.values := by
    rw [h]
  cases hl : lookupLast c'.column_name r.values with
  | none => simp [Row.get, hsame, hl, Except.isOk, Except.toBool]
  | some s => simp [Row.get, hsame, hl, Except.isOk, Except.toBool]

/-- C10 witness: the `name` capabilities of two different tables read the
same value from the same row. -/
theorem C10_table_independent_witness :
    ((Row.new ["name"] ["Alice"]).get ⟨"name", "users"⟩ = Except.ok "Alice") ↔
    ((Row.new ["name"] ["Alice"]).get ⟨"name", "orders"⟩ = Except.ok "Alice") :=
  (C10_table_independent (Row.new ["name"] ["Alice"]) ⟨"name", "users"⟩
    ⟨"name", "orders"⟩ rfl).1 "Alice"

end Pgrs
